import Mathlib

/-!
# Verification of the node-poker-app backend service

Shallow embedding of `src/backend/src/services/PokerGameService.ts` (the
WebSocket poker service) together with a model of the poker-engine `Table`
it wraps.  The engine (`@chevtek/poker-engine` with this repository's
adjustments) is not part of the provided sources, so its operations are
modelled from the specification (sections 4.1-4.4); every such definition
carries a doc comment starting with `Modelled from the spec:`.  All service
level functions (`handlePlayerJoin`, `handlePlayerAction`, `startNewHand`,
`restartGame`, the broadcast projections and `handleHandComplete`) are
translated directly from the TypeScript source.
-/

namespace PokerApp

/-- A playing card: rank 2..14, suit 0..3 (exact encoding is irrelevant to the
claims; the service only forwards card values). -/
structure Card where
  rank : Nat
  suit : Nat
deriving Repr, DecidableEq

/-- A seated player as held by the engine `Table`: chip stack, current-street
bet, total contribution to the hand, fold/all-in status and hole cards. -/
structure Player where
  id : String
  stackSize : Nat
  bet : Nat
  contributed : Nat
  folded : Bool
  allIn : Bool
  holeCards : List Card
deriving Repr, DecidableEq

/-- One (side-)pot: amount, eligible claimants, and (after the hand ends) the
winners of this pot. -/
structure Pot where
  amount : Nat
  eligiblePlayerIds : List String
  winners : Option (List String)
deriving Repr, DecidableEq

/-- A betting street. -/
inductive Street where
  | preflop
  | flop
  | turn
  | river
deriving Repr, DecidableEq

/-- Successor street (river has none; `closeStreet` goes to showdown there). -/
def Street.next : Street → Street
  | .preflop => .flop
  | .flop => .turn
  | .turn => .river
  | .river => .river

/-- Modelled from the spec: the engine `Table` (spec section 3).  Seats are an
ordered sequence of player-or-empty; `actingQueue` is the BettingRound's
players-remaining-to-act ordered queue, whose head is the acting player;
`currentBet` and `lastRaise` may be unset (the service reads them with
`|| 0` resp. `?? bigBlind`).  The shuffled deck is explicit data. -/
structure Table where
  buyIn : Nat
  smallBlind : Nat
  bigBlind : Nat
  players : List (Option Player)
  deck : List Card
  communityCards : List Card
  pots : List Pot
  currentRound : Option Street
  currentBet : Option Nat
  lastRaise : Option Nat
  actingQueue : List String
  dealerIndex : Nat
  winners : Option (List String)
deriving Repr, DecidableEq

namespace Table

/-- All seated players, in seat order (`table.players` with empty seats
dropped). -/
def seatedPlayers (t : Table) : List Player :=
  t.players.filterMap id

/-- `this.table.players.find((p) => p?.id === playerId)`. -/
def findPlayer (t : Table) (pid : String) : Option Player :=
  (t.seatedPlayers).find? (fun p => p.id == pid)

/-- Modelled from the spec: `this.table.currentActor?.id` — the head of the
remaining-to-act queue while a betting round is open, otherwise none. -/
def currentActorId (t : Table) : Option String :=
  if t.currentRound.isSome then t.actingQueue.head? else none

/-- Apply `f` to every seat holding the player with id `pid`. -/
def updatePlayer (t : Table) (pid : String) (f : Player → Player) : Table :=
  { t with players := t.players.map (Option.map (fun p => if p.id == pid then f p else p)) }

/-- Apply `f` to every seated player. -/
def mapSeats (t : Table) (f : Player → Player) : Table :=
  { t with players := t.players.map (Option.map f) }

/-- Drop the head of the remaining-to-act queue. -/
def popQueue (t : Table) : Table :=
  { t with actingQueue := t.actingQueue.tail }

/-- Index of the seat occupied by `pid`, if any. -/
def seatIndexOf (t : Table) (pid : String) : Option Nat :=
  t.players.findIdx? (fun s => match s with | some p => p.id == pid | none => false)

/-- Seated players in clockwise order starting just after seat `i`. -/
def seatsAfterIdx (t : Table) (i : Nat) : List Player :=
  (t.players.drop (i + 1) ++ t.players.take (i + 1)).filterMap id

/-- Seated players that are still in the hand (not folded). -/
def unfoldedPlayers (t : Table) : List Player :=
  t.seatedPlayers.filter (fun p => !p.folded)

end Table

/-- Insert into a sorted list of naturals (ascending). -/
def insertSortedNat (n : Nat) : List Nat → List Nat
  | [] => [n]
  | m :: ms => if n ≤ m then n :: m :: ms else m :: insertSortedNat n ms

/-- Insertion sort for naturals (ascending). -/
def sortNat (l : List Nat) : List Nat :=
  l.foldr insertSortedNat []

/-- Modelled from the spec: the side-pot tier loop (spec section 4.2):
for each distinct contribution level, a pot of (tier − previous tier) ×
(number of players who contributed at least that tier), eligible =
contributed at least the tier and not folded. -/
def potTiers (ps : List Player) : List Nat → Nat → List Pot
  | [], _ => []
  | tier :: rest, prev =>
      { amount := (tier - prev) * (ps.filter (fun p => decide (tier ≤ p.contributed))).length,
        eligiblePlayerIds :=
          ((ps.filter (fun p => decide (tier ≤ p.contributed) && !p.folded)).map (·.id)),
        winners := none } :: potTiers ps rest tier

/-- Modelled from the spec: side-pot computation from each player's total
contribution for the hand, folded players' chips included as dead money
(spec section 4.2). -/
def computePots (ps : List Player) : List Pot :=
  potTiers ps (sortNat ((ps.map (·.contributed)).filter (fun c => c != 0)).dedup) 0

namespace Table

/-- Modelled from the spec: paying one pot out — split evenly, the integer
remainder to the earliest-acting winner (spec section 4.4). -/
def awardPot (t : Table) (pot : Pot) : Table :=
  match pot.winners with
  | none => t
  | some [] => t
  | some (w :: ws) =>
      let n := ws.length + 1
      let share := pot.amount / n
      let rem := pot.amount % n
      let t1 := t.updatePlayer w (fun p => { p with stackSize := p.stackSize + share + rem })
      ws.foldl (fun acc wid =>
        acc.updatePlayer wid (fun p => { p with stackSize := p.stackSize + share })) t1

/-- Modelled from the spec: end of a hand — pay every pot to its winners,
clear street bets and close the betting round; `table.winners` collects the
winners of all pots (spec section 4.4). -/
def finishHand (t : Table) (pots : List Pot) : Table :=
  let t1 := pots.foldl awardPot t
  let t2 := t1.mapSeats (fun p => { p with bet := 0 })
  { t2 with pots := pots,
            winners := some ((pots.map (fun pot => pot.winners.getD [])).flatten.dedup),
            currentRound := none,
            actingQueue := [],
            currentBet := none,
            lastRaise := none }

/-- Modelled from the spec: early termination — only one unfolded player
remains, so every pot goes to its (sole) eligible claimants without a
showdown comparison (spec section 4.4). -/
def endHandEarly (t : Table) : Table :=
  t.finishHand ((computePots t.seatedPlayers).map
    (fun pot => { pot with winners := some pot.eligiblePlayerIds }))

/-- Modelled from the spec: showdown — evaluate each eligible player's best
hand from hole plus community cards with the HandEvaluator `eval` (higher is
better) and, per pot tier, the tied-best eligible players win (spec
section 4.4).  The evaluator is the spec's HandEvaluator interface, passed in
explicitly. -/
def showdown (eval : List Card → Nat) (t : Table) : Table :=
  let ranked : Player → Nat := fun p => eval (p.holeCards ++ t.communityCards)
  let pots := (computePots t.seatedPlayers).map (fun pot =>
    let contenders := t.seatedPlayers.filter (fun p => pot.eligiblePlayerIds.contains p.id)
    let best := (contenders.map ranked).foldl max 0
    { pot with winners := some ((contenders.filter (fun p => ranked p == best)).map (·.id)) })
  t.finishHand pots

/-- Modelled from the spec: once the pots are collected and the street bets
cleared, either run the showdown (river round closed, or no round) or
reveal the next community cards and open a new betting round with current
bet cleared, last raise cleared and the acting queue the active players
clockwise from the dealer (spec section 4.4). -/
def advanceOrShowdown (eval : List Card → Nat) (t2 : Table) : Table :=
  match t2.currentRound with
  | none => t2.showdown eval
  | some .river => t2.showdown eval
  | some st =>
      let dealN := if st = .preflop then 3 else 1
      { t2 with communityCards := t2.communityCards ++ t2.deck.take dealN,
                deck := t2.deck.drop dealN,
                currentRound := some st.next,
                currentBet := none,
                lastRaise := none,
                actingQueue :=
                  ((t2.seatsAfterIdx t2.dealerIndex).filter
                    (fun p => !p.folded && !p.allIn)).map (·.id) }

/-- Modelled from the spec: street close — collect the pots, reset street
bets, then advance the street or run the showdown (spec section 4.4). -/
def closeStreet (eval : List Card → Nat) (t : Table) : Table :=
  advanceOrShowdown eval
    (({ t with pots := computePots t.seatedPlayers }).mapSeats (fun p => { p with bet := 0 }))

/-- Modelled from the spec: after an action is applied — if at most one
unfolded player remains the hand ends at once (early termination); else if
the remaining-to-act queue is empty the street closes; otherwise play
continues (spec sections 4.3-4.4). -/
def resolveAfterAction (eval : List Card → Nat) (t : Table) : Table :=
  if t.unfoldedPlayers.length ≤ 1 then t.endHandEarly
  else if t.actingQueue.isEmpty then t.closeStreet eval
  else t

/-- Modelled from the spec: the common legality preamble of every engine
action — the player must be seated, must be the acting player, and must not
already be folded or all-in (spec section 4.3). -/
def actorCheck (t : Table) (pid : String) : Except String Player :=
  match t.findPlayer pid with
  | none => .error "Player not found at table"
  | some p =>
      if t.currentActorId ≠ some pid then .error "Action invoked on player out of turn"
      else if p.folded || p.allIn then .error "Illegal action"
      else .ok p

/-- Modelled from the spec: the other active players are (re-)queued to act,
clockwise from the bettor/raiser (spec section 4.3). -/
def requeueOthers (t : Table) (pid : String) : List String :=
  match t.seatIndexOf pid with
  | none => []
  | some i => ((t.seatsAfterIdx i).filter
      (fun q => !q.folded && !q.allIn && q.id != pid)).map (·.id)

/-- Modelled from the spec: `call` — legal iff the current bet exceeds the
player's street bet; the amount is fixed at min(currentBet − playerBet,
playerStack) (spec section 4.3). -/
def callAction (eval : List Card → Nat) (t : Table) (pid : String) : Except String Table :=
  match t.actorCheck pid with
  | .error e => .error e
  | .ok p =>
      let cb := t.currentBet.getD 0
      if cb ≤ p.bet then .error "Illegal action: nothing to call"
      else
        let chips := min (cb - p.bet) p.stackSize
        let t1 := t.updatePlayer pid (fun q =>
          { q with bet := q.bet + chips,
                   stackSize := q.stackSize - chips,
                   contributed := q.contributed + chips,
                   allIn := q.stackSize - chips = 0 })
        .ok (t1.popQueue.resolveAfterAction eval)

/-- Modelled from the spec: `check` — legal iff the player's street bet
already equals the current bet (spec section 4.3). -/
def checkAction (eval : List Card → Nat) (t : Table) (pid : String) : Except String Table :=
  match t.actorCheck pid with
  | .error e => .error e
  | .ok p =>
      if p.bet ≠ t.currentBet.getD 0 then .error "Illegal action: cannot check facing a bet"
      else .ok (t.popQueue.resolveAfterAction eval)

/-- Modelled from the spec: `fold` — always legal for the acting player
unless already folded/all-in (spec sections 4.3 and 4.5). -/
def foldAction (eval : List Card → Nat) (t : Table) (pid : String) : Except String Table :=
  match t.actorCheck pid with
  | .error e => .error e
  | .ok _ =>
      let t1 := t.updatePlayer pid (fun q => { q with folded := true })
      .ok (t1.popQueue.resolveAfterAction eval)

/-- Modelled from the spec: `bet` — legal iff the street has no current bet;
the amount must be at least the big blind unless it is the player's entire
remaining stack (all-in); updates current bet and last raise and re-queues
the other active players (spec section 4.3). -/
def betAction (eval : List Card → Nat) (t : Table) (pid : String) (amount : Nat) :
    Except String Table :=
  match t.actorCheck pid with
  | .error e => .error e
  | .ok p =>
      if t.currentBet.getD 0 ≠ 0 then .error "Illegal action: bet not available"
      else if amount ≠ p.stackSize ∧ amount < t.bigBlind then
        .error "A bet must be no less than the big blind"
      else if p.stackSize < amount then .error "Insufficient chips"
      else
        let t1 := t.updatePlayer pid (fun q =>
          { q with bet := amount,
                   stackSize := q.stackSize - amount,
                   contributed := q.contributed + amount,
                   allIn := q.stackSize - amount = 0 })
        let t2 := { t1 with currentBet := some amount,
                            lastRaise := some amount,
                            actingQueue := t1.requeueOthers pid }
        .ok (t2.resolveAfterAction eval)

/-- Modelled from the spec: `raise` — legal iff there is a current bet; the
increase over the current bet must be at least the last raise of the street
(defaulting to the big blind) unless the amount is the player's entire
remaining stack (going all-in, the reading the service's own all-in test
uses) or it is the preflop small-blind completion to exactly the big blind
(spec section 4.3). -/
def raiseAction (eval : List Card → Nat) (t : Table) (pid : String) (amount : Nat) :
    Except String Table :=
  match t.actorCheck pid with
  | .error e => .error e
  | .ok p =>
      if t.currentBet.getD 0 = 0 then .error "Illegal action: raise requires an existing bet"
      else if (amount : Int) - (t.currentBet.getD 0 : Int) < (t.lastRaise.getD t.bigBlind : Int)
          ∧ amount ≠ p.stackSize
          ∧ ¬(t.communityCards.isEmpty = true ∧ p.bet = t.smallBlind ∧ amount = t.bigBlind) then
        .error "Raise below the minimum raise size"
      else if p.stackSize + p.bet < amount then .error "Insufficient chips"
      else
        let chips := amount - p.bet
        let t1 := t.updatePlayer pid (fun q =>
          { q with bet := amount,
                   stackSize := q.stackSize - chips,
                   contributed := q.contributed + chips,
                   allIn := q.stackSize - chips = 0 })
        let t2 := { t1 with currentBet := some (max (t.currentBet.getD 0) amount),
                            lastRaise := some ((amount : Int) - (t.currentBet.getD 0 : Int)).toNat,
                            actingQueue := t1.requeueOthers pid }
        .ok (t2.resolveAfterAction eval)

/-- Index of the first empty seat. -/
def firstEmptySeat : List (Option Player) → Option Nat
  | [] => none
  | none :: _ => some 0
  | some _ :: rest => (firstEmptySeat rest).map (· + 1)

/-- Modelled from the spec: `sitDown` — seats the player at the first empty
seat with the given buy-in; fails if the player is already seated or the
table is full (spec sections 3 and 4.6). -/
def sitDown (t : Table) (pid : String) (buyIn : Nat) : Except String Table :=
  if t.seatedPlayers.any (fun p => p.id == pid) then .error "Player already seated"
  else
    match firstEmptySeat t.players with
    | none => .error "The table is full"
    | some i =>
        .ok { t with players := t.players.set i (some
          { id := pid, stackSize := buyIn, bet := 0, contributed := 0,
            folded := false, allIn := false, holeCards := [] }) }

/-- Assign two hole cards from the deck to each listed player in order. -/
def assignHoles : List String → List Card → Table → Table
  | [], _, t => t
  | pid :: rest, c1 :: c2 :: ds, t =>
      assignHoles rest ds (t.updatePlayer pid (fun p => { p with holeCards := [c1, c2] }))
  | _ :: _, _, t => t

/-- Modelled from the spec: `dealCards` (the spec's `startHand()`) — fails
with InsufficientPlayers if fewer than two seated players have chips;
otherwise removes eliminated (zero-stack) players, rotates the dealer
button, posts the small and big blinds from the next two seats, deals two
hole cards to each player from the supplied shuffled deck and opens the
preflop betting round with the acting player the first seat after the big
blind (spec section 4.4).  The shuffle itself is external randomness and is
passed in as the `deck` argument. -/
def dealCards (t : Table) (deck : List Card) : Except String Table :=
  if ((t.players.map (fun s => s.bind
      (fun p => if p.stackSize = 0 then none else some p))).filterMap id).length < 2 then
    .error "InsufficientPlayers: at least two seated players with chips are required"
  else
    let seats0 := t.players.map (fun s => s.bind
      (fun p => if p.stackSize = 0 then none else some p))
    let seats1 := seats0.map (Option.map (fun p =>
      { p with bet := 0, contributed := 0, folded := false, allIn := false, holeCards := [] }))
    let t1 : Table := { t with players := seats1,
                               communityCards := [], pots := [], winners := none }
    let d := (t.dealerIndex + 1) % (max t1.players.length 1)
    let postBlind : Nat → Player → Player := fun amt p =>
      let c := min amt p.stackSize
      { p with bet := c, contributed := c,
               stackSize := p.stackSize - c, allIn := p.stackSize - c = 0 }
    match (t1.seatsAfterIdx d).map (·.id) with
    | sbId :: bbId :: rest =>
        let t2 := (t1.updatePlayer sbId (postBlind t.smallBlind)).updatePlayer
                    bbId (postBlind t.bigBlind)
        let holeOrder := sbId :: bbId :: rest
        let t3 := assignHoles holeOrder deck t2
        let queue := (rest ++ [sbId, bbId]).filter (fun pid =>
          match t3.findPlayer pid with
          | some p => !p.folded && !p.allIn
          | none => false)
        .ok { t3 with deck := deck.drop (2 * holeOrder.length),
                      currentRound := some .preflop,
                      currentBet := some t.bigBlind,
                      lastRaise := none,
                      actingQueue := queue,
                      dealerIndex := d }
    | _ => .error "InsufficientPlayers: at least two seated players with chips are required"

end Table

/-- The table the service constructs: `new Table(1000, 5, 10)` with nine
empty seats. -/
def freshTable (buyIn smallBlind bigBlind : Nat) : Table :=
  { buyIn := buyIn, smallBlind := smallBlind, bigBlind := bigBlind,
    players := List.replicate 9 none, deck := [], communityCards := [],
    pots := [], currentRound := none, currentBet := none, lastRaise := none,
    actingQueue := [], dealerIndex := 0, winners := none }

/-- `new Table(1000, 5, 10)` as used by the service constructor and
`restartGame`. -/
def initialTable : Table := freshTable 1000 5 10

/-! ## The service layer (`PokerGameService.ts`) -/

/-- A registry entry (`ConnectedPlayer`): id, display name, and the
connection, modelled as a socket handle. -/
structure ConnectedPlayer where
  id : String
  name : String
  socket : Nat
deriving Repr, DecidableEq

/-- The mutable state of `PokerGameService`: the engine table and the
`connectedPlayers` map (an insertion-ordered association list keyed by
player id, as a JS `Map` is). -/
structure ServiceState where
  table : Table
  connectedPlayers : List (String × ConnectedPlayer)
deriving Repr, DecidableEq

/-- `this.connectedPlayers.get(playerId)`. -/
def lookupReg (r : List (String × ConnectedPlayer)) (pid : String) : Option ConnectedPlayer :=
  (r.find? (fun e => e.1 == pid)).map (·.2)

/-- `this.connectedPlayers.set(playerId, cp)`: update in place if the key
exists, else append (JS `Map` insertion order). -/
def setReg (r : List (String × ConnectedPlayer)) (pid : String) (cp : ConnectedPlayer) :
    List (String × ConnectedPlayer) :=
  if r.any (fun e => e.1 == pid) then
    r.map (fun e => if e.1 == pid then (pid, cp) else e)
  else r ++ [(pid, cp)]

/-- Modelled from the spec: the engine's `player.legalActions()` — the legal
action set derived from the betting state (spec section 4.3).  The claims
only rely on the service sending `[]` when it is not the player's turn,
which the service itself enforces. -/
def legalActions (t : Table) (p : Player) : List String :=
  if t.currentRound.isNone || p.folded || p.allIn then []
  else
    let cb := t.currentBet.getD 0
    ["fold"]
      ++ (if p.bet = cb then ["check"] else [])
      ++ (if p.bet < cb then ["call"] else [])
      ++ (if cb = 0 then ["bet"] else [])
      ++ (if 0 < cb then ["raise"] else [])

/-- The public per-seat projection built by `getPublicPlayerStates`. -/
structure PublicPlayer where
  id : String
  name : Option String
  stackSize : Nat
  bet : Nat
  folded : Bool
  isCurrentActor : Bool
deriving Repr, DecidableEq

/-- The table-wide public projection sent by `broadcastGameState`. -/
structure PublicState where
  communityCards : List Card
  pot : Nat
  currentBet : Option Nat
  currentActor : Option String
  currentRound : Option Street
  players : List (Option PublicPlayer)
deriving Repr, DecidableEq

/-- The per-player private projection sent by `broadcastGameState`. -/
structure PrivateState where
  holeCards : Option (List Card)
  availableActions : List String
  minRaise : Nat
  maxBet : Nat
deriving Repr, DecidableEq

/-- The initial per-player state built by `getPlayerState` (sent on join). -/
structure JoinState where
  holeCards : List Card
  availableActions : List String
  stackSize : Nat
  bet : Nat
  isCurrentActor : Bool
  communityCards : List Card
  pot : Nat
  currentBet : Option Nat
  currentRound : Option Street
deriving Repr, DecidableEq

/-- One entry of the `handComplete` winners list.  The amount is a JS
number; its exact division is modelled as a rational. -/
structure WinnerEntry where
  playerId : String
  amount : ℚ
deriving Repr, DecidableEq

/-- An outbound server message, tagged with its recipient: a raw socket
(`sendError` on join / malformed input), one registered player
(`sendToPlayer`), or all connections (`broadcast`). -/
inductive Msg where
  | errorToSocket (sock : Nat) (err : String)
  | gameStateTo (pid : String) (st : JoinState)
  | privateTo (pid : String) (st : PrivateState)
  | broadcastPlayers (players : List (Option PublicPlayer))
  | broadcastGameState (st : PublicState)
  | notifyAll (msg : String)
  | handComplete (winners : Option (List WinnerEntry))
  | gameReset (msg : String)
  | broadcastError (err : String)
deriving Repr, DecidableEq

/-- Whether a message is the broadcast `notification` type. -/
def Msg.isNotifyAll : Msg → Bool
  | .notifyAll _ => true
  | _ => false

/-- `getPlayerState` (source lines 259-272). -/
def getPlayerState (s : ServiceState) (pid : String) : JoinState :=
  let player := s.table.findPlayer pid
  { holeCards := (player.map (·.holeCards)).getD [],
    availableActions := (player.map (legalActions s.table)).getD [],
    stackSize := (player.map (·.stackSize)).getD 0,
    bet := (player.map (·.bet)).getD 0,
    isCurrentActor := decide (s.table.currentActorId = some pid),
    communityCards := s.table.communityCards,
    pot := (s.table.pots.map (·.amount)).sum,
    currentBet := s.table.currentBet,
    currentRound := s.table.currentRound }

/-- `getPublicPlayerStates` (source lines 274-287): per seat only id, name
(from the registry), stack, bet, folded flag and whose-turn flag. -/
def getPublicPlayerStates (s : ServiceState) : List (Option PublicPlayer) :=
  s.table.players.map (Option.map (fun player =>
    { id := player.id,
      name := (lookupReg s.connectedPlayers player.id).map (·.name),
      stackSize := player.stackSize,
      bet := player.bet,
      folded := player.folded,
      isCurrentActor := decide (s.table.currentActorId = some player.id) }))

/-- The public game-state payload of `broadcastGameState` (source lines
302-312). -/
def publicGameState (s : ServiceState) : PublicState :=
  { communityCards := s.table.communityCards,
    pot := (s.table.pots.map (·.amount)).sum,
    currentBet := s.table.currentBet,
    currentActor := s.table.currentActorId,
    currentRound := s.table.currentRound,
    players := getPublicPlayerStates s }

/-- The per-player private payload of `broadcastGameState` (source lines
316-328). -/
def privateStateFor (s : ServiceState) (pid : String) : PrivateState :=
  { holeCards := (s.table.findPlayer pid).map (·.holeCards),
    availableActions :=
      if s.table.currentActorId = some pid then
        ((s.table.findPlayer pid).map (legalActions s.table)).getD []
      else [],
    minRaise := s.table.lastRaise.getD s.table.bigBlind,
    maxBet := ((s.table.findPlayer pid).map (·.stackSize)).getD 0 }

/-- `broadcastGameState` (source lines 300-331): the public projection to
all, then each registered player's private projection to that player
only. -/
def broadcastGameStateMsgs (s : ServiceState) : List Msg :=
  Msg.broadcastGameState (publicGameState s)
    :: s.connectedPlayers.map (fun e => Msg.privateTo e.1 (privateStateFor s e.1))

/-- The per-winner amount of the `handComplete` message (source lines
243-252): `pots.reduce((total, pot) => pot.winners?.includes(w) ? total +
pot.amount / (pot.winners?.length || 1) : total, 0)`; JS number division is
modelled exactly as rational division. -/
def winnerAmount (t : Table) (wid : String) : ℚ :=
  t.pots.foldl (fun total pot =>
    if (pot.winners.getD []).contains wid then
      total + (pot.amount : ℚ) /
        ((fun n => if n = 0 then 1 else n) (pot.winners.getD []).length : ℕ)
    else total) 0

/-- `handleHandComplete` (source lines 239-257): broadcast the winners and
their amounts. -/
def handleHandCompleteMsg (t : Table) : Msg :=
  Msg.handComplete (t.winners.map (fun ws =>
    ws.map (fun wid => { playerId := wid, amount := winnerAmount t wid })))

/-- `const FIXED_BUY_IN = 1000` (source line 77). -/
def FIXED_BUY_IN : Nat := 1000

/-- `handlePlayerJoin` (source lines 70-95): seats the player with the
house-fixed buy-in (the client-supplied `buyIn` is ignored), registers the
connection, sends the joiner its initial state and broadcasts the updated
player list; on any failure only an error is sent to the joining socket. -/
def handlePlayerJoin (s : ServiceState) (socket : Nat) (pid name : String)
    (buyIn : Nat) : ServiceState × List Msg :=
  let _ := buyIn
  match s.table.sitDown pid FIXED_BUY_IN with
  | .error e => (s, [Msg.errorToSocket socket e])
  | .ok t' =>
      let s' : ServiceState :=
        { table := t',
          connectedPlayers := setReg s.connectedPlayers pid
            { id := pid, name := name, socket := socket } }
      (s', [Msg.gameStateTo pid (getPlayerState s' pid),
            Msg.broadcastPlayers (getPublicPlayerStates s')])

/-- The `try` block of `handlePlayerAction` (source lines 116-167): find the
player, check the turn, then dispatch on the action string (the JS `switch`
compares string equality) with the service's own amount checks before the
engine call.  `isAllIn` (`amount === player.stackSize`) and the special
preflop small-blind case are inlined at their use sites. -/
def applyAction (eval : List Card → Nat) (t : Table) (playerId action : String)
    (amount : Option Nat) : Except String Table :=
  match t.findPlayer playerId with
  | none => .error "Player not found"
  | some player =>
      if t.currentActorId ≠ some playerId then .error "Not your turn"
      else if action = "call" then t.callAction eval playerId
      else if action = "check" then t.checkAction eval playerId
      else if action = "fold" then t.foldAction eval playerId
      else if action = "bet" then
        match amount with
        | none => .error "Amount required for bet"
        | some a =>
            if ¬(a = player.stackSize) ∧ a < t.bigBlind then
              .error "Bet must be at least the big blind"
            else t.betAction eval playerId a
      else if action = "raise" then
        match amount with
        | none => .error "Amount required for raise"
        | some a =>
            if ¬(a = player.stackSize)
                ∧ ¬(t.communityCards.isEmpty = true ∧ player.bet = t.smallBlind
                      ∧ a = t.bigBlind)
                ∧ (a : Int) - (t.currentBet.getD 0 : Int) < (t.bigBlind : Int) then
              .error "Raise must increase the current bet by at least the big blind"
            else t.raiseAction eval playerId a
      else .error "Invalid action"

/-- `handlePlayerAction` (source lines 110-207).  On success: broadcast the
new game state and, if the hand is over, the hand-complete message.  On any
error: send the error to the player's registered socket, and if it was that
player's turn auto-fold them, broadcast a notification with the reason, the
new game state and, if the hand is now over, the hand-complete message.  If
the player has no registry entry the real code raises a TypeError while
sending the error (before the auto-fold block), so the state is left
unchanged and nothing further is sent. -/
def handlePlayerAction (eval : List Card → Nat) (s : ServiceState)
    (playerId action : String) (amount : Option Nat) : ServiceState × List Msg :=
  match applyAction eval s.table playerId action amount with
  | .ok t' =>
      let s' : ServiceState := { s with table := t' }
      (s', broadcastGameStateMsgs s'
            ++ (if t'.currentRound.isNone then [handleHandCompleteMsg t'] else []))
  | .error err =>
      match lookupReg s.connectedPlayers playerId with
      | none => (s, [])
      | some cp =>
          let errMsg := Msg.errorToSocket cp.socket err
          match s.table.findPlayer playerId with
          | none => (s, [errMsg])
          | some _ =>
              if s.table.currentActorId = some playerId then
                match s.table.foldAction eval playerId with
                | .ok t' =>
                    let s' : ServiceState := { s with table := t' }
                    (s', errMsg
                          :: Msg.notifyAll
                              (cp.name ++ " auto-folded due to invalid action: " ++ err)
                          :: broadcastGameStateMsgs s'
                          ++ (if t'.currentRound.isNone then [handleHandCompleteMsg t']
                              else []))
                | .error _ => (s, [errMsg])
              else (s, [errMsg])

/-- `startNewHand` (source lines 209-220): deal a new hand and broadcast the
state; on failure broadcast an error message to all connections and change
nothing.  The shuffled deck is the external randomness. -/
def startNewHand (s : ServiceState) (deck : List Card) : ServiceState × List Msg :=
  match s.table.dealCards deck with
  | .ok t' =>
      let s' : ServiceState := { s with table := t' }
      (s', broadcastGameStateMsgs s')
  | .error _ =>
      (s, [Msg.broadcastError "Failed to start new hand. Make sure there are enough players."])

/-- `restartGame` (source lines 222-237): fresh table, cleared registry, a
`gameReset` broadcast and the (now empty) game-state broadcast. -/
def restartGame (s : ServiceState) : ServiceState × List Msg :=
  let _ := s
  let s' : ServiceState := { table := initialTable, connectedPlayers := [] }
  (s', Msg.gameReset "Game has been reset. All players must rejoin."
        :: broadcastGameStateMsgs s')

/-! ## Fixtures and claim-support definitions -/

/-- The table after "alice" joins the fresh table. -/
def tJoined : Table :=
  { initialTable with
    players := some { id := "alice", stackSize := 1000, bet := 0, contributed := 0,
                      folded := false, allIn := false, holeCards := [] }
                :: List.replicate 8 none }

/-- The service state after "alice" joined the fresh table. -/
def sJoined : ServiceState :=
  { table := tJoined,
    connectedPlayers := [("alice", { id := "alice", name := "Alice", socket := 7 })] }

/-- A live preflop table: blinds posted, "alice" to act, "bob" next. -/
def tLive : Table :=
  { buyIn := 1000, smallBlind := 5, bigBlind := 10,
    players := [some { id := "alice", stackSize := 995, bet := 5, contributed := 5,
                       folded := false, allIn := false,
                       holeCards := [{ rank := 14, suit := 0 }, { rank := 13, suit := 0 }] },
                some { id := "bob", stackSize := 990, bet := 10, contributed := 10,
                       folded := false, allIn := false,
                       holeCards := [{ rank := 2, suit := 1 }, { rank := 3, suit := 1 }] }],
    deck := [], communityCards := [], pots := [],
    currentRound := some Street.preflop, currentBet := some 10, lastRaise := none,
    actingQueue := ["alice", "bob"], dealerIndex := 1, winners := none }

/-- The registered connection of "alice" in the live fixture. -/
def cpAlice : ConnectedPlayer := { id := "alice", name := "Alice", socket := 7 }

/-- The live fixture's seat of "alice". -/
def pAlice : Player :=
  { id := "alice", stackSize := 995, bet := 5, contributed := 5,
    folded := false, allIn := false,
    holeCards := [{ rank := 14, suit := 0 }, { rank := 13, suit := 0 }] }

/-- The live fixture service state. -/
def sLive : ServiceState :=
  { table := tLive,
    connectedPlayers := [("alice", cpAlice),
                         ("bob", { id := "bob", name := "Bob", socket := 8 })] }

/-- Replace every seated player's hole cards according to `f`. -/
def Table.setHoleCards (t : Table) (f : String → List Card) : Table :=
  t.mapSeats (fun p => { p with holeCards := f p.id })

/-- Replace the hole cards of every seated player other than `pid`. -/
def Table.setHoleCardsExcept (t : Table) (pid : String) (f : String → List Card) : Table :=
  t.mapSeats (fun p => if p.id == pid then p else { p with holeCards := f p.id })

/-- Whether an engine/service call succeeded. -/
def exceptIsOk {ε α : Type _} : Except ε α → Bool
  | .ok _ => true
  | .error _ => false

/-- The raise-legality condition of claim C4: the increase over the current
bet is at least the last raise of the street (defaulting to the big blind),
or the amount is the player's entire remaining stack (all-in), or it is the
preflop small-blind completion to exactly the big blind. -/
def raiseLegalCond (t : Table) (p : Player) (a : Nat) : Prop :=
  (t.lastRaise.getD t.bigBlind : Int) ≤ (a : Int) - (t.currentBet.getD 0 : Int)
  ∨ a = p.stackSize
  ∨ (t.communityCards.isEmpty = true ∧ p.bet = t.smallBlind ∧ a = t.bigBlind)

/-- The pot of the C6 counterexample: 25 chips, won jointly by A and B. -/
def potC6 : Pot := { amount := 25, eligiblePlayerIds := ["A", "B"], winners := some ["A", "B"] }

/-- A finished hand whose single pot of 25 is split between two winners. -/
def tC6 : Table :=
  { buyIn := 1000, smallBlind := 5, bigBlind := 10,
    players := [], deck := [], communityCards := [], pots := [potC6],
    currentRound := none, currentBet := none, lastRaise := none,
    actingQueue := [], dealerIndex := 0, winners := some ["A", "B"] }

/-- The handComplete per-winner amount with the division operator
abstracted: `divf amount count` stands for the JS number division
`pot.amount / (pot.winners?.length || 1)` of the source, whose float64
result is not shallowly embeddable; properties proved for every `divf`
therefore hold for the real float64 division as well.  `winnerAmount` is
exactly the ideal-division instance `fun a n => (a : ℚ) / (n : ℚ)`. -/
def winnerAmountWith (divf : Nat → Nat → ℚ) (t : Table) (wid : String) : ℚ :=
  t.pots.foldl (fun total pot =>
    if (pot.winners.getD []).contains wid then
      total + divf pot.amount ((fun n => if n = 0 then 1 else n) (pot.winners.getD []).length)
    else total) 0

/-! ## Helper lemmas -/

/-- The fold flag the table records for `pid` (if seated). -/
def foldedOf (t : Table) (pid : String) : Option Bool :=
  (t.findPlayer pid).map (·.folded)

theorem filterMap_id_map_optionMap (f : Player → Player) (l : List (Option Player)) :
    (l.map (Option.map f)).filterMap id = (l.filterMap id).map f := by
  induction l with
  | nil => simp
  | cons s rest ih => cases s <;> simp [ih]

theorem find?_map_id_pred (f : Player → Player) (hid : ∀ p, (f p).id = p.id)
    (l : List Player) (pid : String) :
    (l.map f).find? (fun p => p.id == pid) =
      Option.map f (l.find? (fun p => p.id == pid)) := by
  induction l with
  | nil => simp
  | cons a rest ih =>
    by_cases h : a.id == pid
    · simp [List.find?_cons, hid, h]
    · simp only [List.map_cons, List.find?_cons, hid, h]
      simpa [Bool.not_eq_true] using ih

theorem findPlayer_mapSeats (t : Table) (f : Player → Player)
    (hid : ∀ p, (f p).id = p.id) (pid : String) :
    (t.mapSeats f).findPlayer pid = Option.map f (t.findPlayer pid) := by
  show ((t.players.map (Option.map f)).filterMap id).find? (fun p => p.id == pid)
      = Option.map f ((t.players.filterMap id).find? (fun p => p.id == pid))
  rw [filterMap_id_map_optionMap, find?_map_id_pred f hid]

theorem findPlayer_updatePlayer (t : Table) (pid' : String) (g : Player → Player)
    (hid : ∀ p, (g p).id = p.id) (pid : String) :
    (t.updatePlayer pid' g).findPlayer pid =
      Option.map (fun p => if p.id == pid' then g p else p) (t.findPlayer pid) := by
  have : t.updatePlayer pid' g = t.mapSeats (fun p => if p.id == pid' then g p else p) := rfl
  rw [this, findPlayer_mapSeats]
  intro p
  by_cases h : p.id == pid' <;> simp [h, hid]

theorem foldedOf_mapSeats (t : Table) (f : Player → Player)
    (hid : ∀ p, (f p).id = p.id) (hf : ∀ p, (f p).folded = p.folded) (pid : String) :
    foldedOf (t.mapSeats f) pid = foldedOf t pid := by
  unfold foldedOf
  rw [findPlayer_mapSeats t f hid]
  cases t.findPlayer pid <;> simp [hf]

theorem foldedOf_updatePlayer (t : Table) (pid' : String) (g : Player → Player)
    (hid : ∀ p, (g p).id = p.id) (hf : ∀ p, (g p).folded = p.folded) (pid : String) :
    foldedOf (t.updatePlayer pid' g) pid = foldedOf t pid := by
  have : t.updatePlayer pid' g = t.mapSeats (fun p => if p.id == pid' then g p else p) := rfl
  rw [this, foldedOf_mapSeats]
  · intro p; by_cases h : p.id == pid' <;> simp [h, hid]
  · intro p; by_cases h : p.id == pid' <;> simp [h, hf]

theorem foldedOf_players_only (t t' : Table) (h : t'.players = t.players) (pid : String) :
    foldedOf t' pid = foldedOf t pid := by
  simp [foldedOf, Table.findPlayer, Table.seatedPlayers, h]

theorem foldedOf_awardPot (t : Table) (pot : Pot) (pid : String) :
    foldedOf (t.awardPot pot) pid = foldedOf t pid := by
  unfold Table.awardPot
  cases hw : pot.winners with
  | none => rfl
  | some ws =>
    cases ws with
    | nil => rfl
    | cons w rest =>
      have base :
          ∀ (l : List String) (u : Table),
            foldedOf (l.foldl (fun acc wid => acc.updatePlayer wid
              (fun p => { p with stackSize := p.stackSize + pot.amount / (rest.length + 1) })) u) pid
              = foldedOf u pid := by
        intro l
        induction l with
        | nil => intro u; rfl
        | cons x xs ih =>
          intro u
          rw [List.foldl_cons, ih]
          exact foldedOf_updatePlayer u x
            (fun p => { p with stackSize := p.stackSize + pot.amount / (rest.length + 1) })
            (fun p => rfl) (fun p => rfl) pid
      rw [base]
      exact foldedOf_updatePlayer t w
        (fun p => { p with
          stackSize := p.stackSize + pot.amount / (rest.length + 1)
                        + pot.amount % (rest.length + 1) })
        (fun p => rfl) (fun p => rfl) pid

theorem foldedOf_foldl_awardPot (t : Table) (pots : List Pot) (pid : String) :
    foldedOf (pots.foldl Table.awardPot t) pid = foldedOf t pid := by
  induction pots generalizing t with
  | nil => rfl
  | cons p ps ih => rw [List.foldl_cons, ih, foldedOf_awardPot]

theorem foldedOf_finishHand (t : Table) (pots : List Pot) (pid : String) :
    foldedOf (t.finishHand pots) pid = foldedOf t pid := by
  have h1 : foldedOf (t.finishHand pots) pid
      = foldedOf ((pots.foldl Table.awardPot t).mapSeats (fun p => { p with bet := 0 })) pid :=
    foldedOf_players_only ((pots.foldl Table.awardPot t).mapSeats (fun p => { p with bet := 0 }))
      (t.finishHand pots) rfl pid
  rw [h1, foldedOf_mapSeats (pots.foldl Table.awardPot t) (fun p => { p with bet := 0 })
      (fun p => rfl) (fun p => rfl), foldedOf_foldl_awardPot]

theorem foldedOf_showdown (eval : List Card → Nat) (t : Table) (pid : String) :
    foldedOf (t.showdown eval) pid = foldedOf t pid := by
  unfold Table.showdown
  exact foldedOf_finishHand t _ pid

theorem foldedOf_endHandEarly (t : Table) (pid : String) :
    foldedOf t.endHandEarly pid = foldedOf t pid := by
  unfold Table.endHandEarly
  exact foldedOf_finishHand t _ pid

theorem foldedOf_advanceOrShowdown (eval : List Card → Nat) (t2 : Table) (pid : String) :
    foldedOf (t2.advanceOrShowdown eval) pid = foldedOf t2 pid := by
  unfold Table.advanceOrShowdown
  split
  · exact foldedOf_showdown eval t2 pid
  · exact foldedOf_showdown eval t2 pid
  · exact foldedOf_players_only t2 _ rfl pid

theorem foldedOf_closeStreet (eval : List Card → Nat) (t : Table) (pid : String) :
    foldedOf (t.closeStreet eval) pid = foldedOf t pid := by
  unfold Table.closeStreet
  rw [foldedOf_advanceOrShowdown,
    foldedOf_mapSeats _ (fun p => { p with bet := 0 }) (fun p => rfl) (fun p => rfl)]
  exact foldedOf_players_only t { t with pots := computePots t.seatedPlayers } rfl pid

theorem foldedOf_resolveAfterAction (eval : List Card → Nat) (t : Table) (pid : String) :
    foldedOf (t.resolveAfterAction eval) pid = foldedOf t pid := by
  unfold Table.resolveAfterAction
  split
  · exact foldedOf_endHandEarly t pid
  · split
    · exact foldedOf_closeStreet eval t pid
    · rfl

theorem foldedOf_popQueue (t : Table) (pid : String) :
    foldedOf t.popQueue pid = foldedOf t pid :=
  foldedOf_players_only t t.popQueue rfl pid

/-- The auto-fold the service performs cannot fail: for the acting player,
who is seated, unfolded and not all-in, `foldAction` succeeds and records
the fold. -/
theorem foldAction_ok (eval : List Card → Nat) (t : Table) (pid : String) (p : Player)
    (hfind : t.findPlayer pid = some p) (hactor : t.currentActorId = some pid)
    (hf : p.folded = false) (ha : p.allIn = false) :
    ∃ t', t.foldAction eval pid = Except.ok t' ∧ foldedOf t' pid = some true := by
  have hpid : p.id = pid := by
    have h0 : (t.seatedPlayers).find? (fun q => q.id == pid) = some p := hfind
    have h1 := List.find?_some h0
    simpa using h1
  refine ⟨(t.updatePlayer pid (fun q => { q with folded := true })).popQueue.resolveAfterAction
    eval, ?_, ?_⟩
  · unfold Table.foldAction Table.actorCheck
    rw [hfind]
    simp [hactor, hf, ha]
  · rw [foldedOf_resolveAfterAction, foldedOf_popQueue]
    unfold foldedOf
    rw [findPlayer_updatePlayer t pid (fun q => { q with folded := true })
      (fun q => rfl) pid, hfind]
    simp [hpid]

theorem find_set_firstEmpty (q : Player) :
    ∀ (seats : List (Option Player)) (i : Nat),
      (seats.filterMap id).any (fun p => p.id == q.id) = false →
      Table.firstEmptySeat seats = some i →
      ((seats.set i (some q)).filterMap id).find? (fun p => p.id == q.id) = some q := by
  intro seats
  induction seats with
  | nil =>
    intro i h1 h2
    simp [Table.firstEmptySeat] at h2
  | cons s rest ih =>
    intro i h1 h2
    cases s with
    | none =>
      have hi : i = 0 := by
        have : (some 0 : Option Nat) = some i := h2
        exact (Option.some.inj this).symm
      subst hi
      simp
    | some p =>
      rcases Option.map_eq_some'.mp h2 with ⟨j, hj, hij⟩
      subst hij
      have h1p : (p.id == q.id) = false ∧ (rest.filterMap id).any (fun r => r.id == q.id) = false := by
        constructor
        · by_contra hc
          have : (p.id == q.id) = true := by
            cases hpq : (p.id == q.id) with
            | true => rfl
            | false => exact absurd hpq hc
          simp [this] at h1
        · by_contra hc
          have : (rest.filterMap id).any (fun r => r.id == q.id) = true := by
            cases hr : (rest.filterMap id).any (fun r => r.id == q.id) with
            | true => rfl
            | false => exact absurd hr hc
          simp [this] at h1
      have := ih j h1p.2 hj
      simpa [List.find?_cons, h1p.1] using this

/-- On a successful `sitDown` the player is seated with exactly the
requested stack, no bet, unfolded. -/
theorem sitDown_ok_findPlayer (t : Table) (pid : String) (buyIn : Nat) (t' : Table)
    (h : t.sitDown pid buyIn = Except.ok t') :
    t'.findPlayer pid = some
      { id := pid, stackSize := buyIn, bet := 0, contributed := 0,
        folded := false, allIn := false, holeCards := [] } := by
  unfold Table.sitDown at h
  by_cases hany : t.seatedPlayers.any (fun p => p.id == pid) = true
  · rw [if_pos hany] at h
    exact absurd h (by simp)
  · rw [if_neg hany] at h
    cases hfe : Table.firstEmptySeat t.players with
    | none =>
      rw [hfe] at h
      exact absurd h (by simp)
    | some i =>
      rw [hfe] at h
      have ht' := (Except.ok.inj h).symm
      subst ht'
      show ((t.players.set i _).filterMap id).find? (fun p => p.id == pid) = _
      exact find_set_firstEmpty
        { id := pid, stackSize := buyIn, bet := 0, contributed := 0,
          folded := false, allIn := false, holeCards := [] }
        t.players i (by simpa [Table.seatedPlayers] using hany) hfe

/-! ## The claims -/

/-- C5: a join seats the player with the house-fixed buy-in of 1000 and the
client-supplied `buyIn` field is ignored entirely: two join messages
identical except for their buyIn value produce identical results, and a
successful join seats the player with stack 1000. -/
theorem join_ignores_client_buyIn (s : ServiceState) (sock : Nat) (pid name : String)
    (buyIn1 buyIn2 : Nat) :
    handlePlayerJoin s sock pid name buyIn1 = handlePlayerJoin s sock pid name buyIn2 ∧
    ∀ t', s.table.sitDown pid FIXED_BUY_IN = Except.ok t' →
      (handlePlayerJoin s sock pid name buyIn1).1.table = t' ∧
      t'.findPlayer pid = some
        { id := pid, stackSize := 1000, bet := 0, contributed := 0,
          folded := false, allIn := false, holeCards := [] } := by
  refine ⟨rfl, ?_⟩
  intro t' h
  constructor
  · unfold handlePlayerJoin
    rw [h]
  · exact sitDown_ok_findPlayer s.table pid FIXED_BUY_IN t' h

theorem join_ignores_client_buyIn_witness :
    handlePlayerJoin { table := initialTable, connectedPlayers := [] } 7 "alice" "Alice" 5
      = handlePlayerJoin { table := initialTable, connectedPlayers := [] } 7 "alice" "Alice" 987654 ∧
    tJoined.findPlayer "alice" = some
      { id := "alice", stackSize := 1000, bet := 0, contributed := 0,
        folded := false, allIn := false, holeCards := [] } := by
  have h := join_ignores_client_buyIn
    { table := initialTable, connectedPlayers := [] } 7 "alice" "Alice" 5 987654
  exact ⟨h.1, (h.2 tJoined rfl).2⟩

/-- C10: join is atomic on failure: if seating fails, only an error goes to
the joining socket; the table and the registry are unchanged and neither a
gameState nor a players broadcast is produced. -/
theorem join_failure_atomic (s : ServiceState) (sock : Nat) (pid name : String)
    (buyIn : Nat) (e : String)
    (h : s.table.sitDown pid FIXED_BUY_IN = Except.error e) :
    handlePlayerJoin s sock pid name buyIn = (s, [Msg.errorToSocket sock e]) := by
  unfold handlePlayerJoin
  rw [h]

theorem join_failure_atomic_witness :
    handlePlayerJoin sJoined 9 "alice" "Mallory" 5
      = (sJoined, [Msg.errorToSocket 9 "Player already seated"]) :=
  join_failure_atomic sJoined 9 "alice" "Mallory" 5 "Player already seated" (by rfl)

/-- C7: a restart succeeds unconditionally from any state: it yields the
fresh table (all nine seats empty), an empty registry, a gameReset notice
followed by the empty game-state broadcast, and a subsequent join behaves
exactly as on a service that never had a game (and that join's seating
succeeds). -/
theorem restart_unconditional_reset (s : ServiceState) (sock : Nat) (pid name : String)
    (buyIn : Nat) :
    restartGame s = ({ table := initialTable, connectedPlayers := [] },
      [Msg.gameReset "Game has been reset. All players must rejoin.",
       Msg.broadcastGameState (publicGameState { table := initialTable, connectedPlayers := [] })]) ∧
    (restartGame s).1.table.players = List.replicate 9 none ∧
    (restartGame s).1.connectedPlayers = [] ∧
    handlePlayerJoin (restartGame s).1 sock pid name buyIn
      = handlePlayerJoin { table := initialTable, connectedPlayers := [] } sock pid name buyIn ∧
    ∃ t', initialTable.sitDown pid FIXED_BUY_IN = Except.ok t' :=
  ⟨rfl, rfl, rfl, rfl, ⟨_, rfl⟩⟩

/-- C2: an action message from a player who is not the current actor (or an
unknown playerId) leaves the whole service state — table and registry —
unchanged; in particular nobody is folded. -/
theorem out_of_turn_leaves_state_unchanged (eval : List Card → Nat) (s : ServiceState)
    (playerId action : String) (amount : Option Nat)
    (h : s.table.findPlayer playerId = none ∨ s.table.currentActorId ≠ some playerId) :
    (handlePlayerAction eval s playerId action amount).1 = s := by
  have herr : ∃ e, applyAction eval s.table playerId action amount = Except.error e := by
    unfold applyAction
    rcases h with h | h
    · rw [h]
      exact ⟨_, rfl⟩
    · cases hfind : s.table.findPlayer playerId with
      | none => exact ⟨_, rfl⟩
      | some p =>
          refine ⟨"Not your turn", ?_⟩
          dsimp only
          rw [if_pos h]
  obtain ⟨e, herr⟩ := herr
  unfold handlePlayerAction
  rw [herr]
  cases hreg : lookupReg s.connectedPlayers playerId with
  | none => rfl
  | some cp =>
      cases hfind : s.table.findPlayer playerId with
      | none => rfl
      | some p =>
          rcases h with h | h
          · rw [h] at hfind
            exact absurd hfind (by simp)
          · dsimp only
            rw [if_neg h]

theorem out_of_turn_leaves_state_unchanged_witness :
    (handlePlayerAction (fun _ => 0) sJoined "alice" "call" none).1 = sJoined :=
  out_of_turn_leaves_state_unchanged (fun _ => 0) sJoined "alice" "call" none
    (Or.inr (by decide))

/-- C1: when the acting player's action request fails validation (unknown
action, missing amount, undersized bet or raise, or an engine rejection),
the service sends the error to that player's connection, then the auto-fold
succeeds unconditionally (it cannot fail), the player is recorded as
folded, and a notification carrying the reason is broadcast to all
sessions, followed by the game-state rebroadcast (and the hand-complete
message when the fold ended the hand). -/
theorem autofold_on_illegal_action (eval : List Card → Nat) (s : ServiceState)
    (playerId action : String) (amount : Option Nat) (e : String)
    (cp : ConnectedPlayer) (p : Player)
    (herr : applyAction eval s.table playerId action amount = Except.error e)
    (hreg : lookupReg s.connectedPlayers playerId = some cp)
    (hfind : s.table.findPlayer playerId = some p)
    (hactor : s.table.currentActorId = some playerId)
    (hf : p.folded = false) (ha : p.allIn = false) :
    ∃ t', s.table.foldAction eval playerId = Except.ok t' ∧
      foldedOf t' playerId = some true ∧
      handlePlayerAction eval s playerId action amount =
        ({ s with table := t' },
          Msg.errorToSocket cp.socket e
            :: Msg.notifyAll (cp.name ++ " auto-folded due to invalid action: " ++ e)
            :: (broadcastGameStateMsgs { s with table := t' }
                ++ if t'.currentRound.isNone then [handleHandCompleteMsg t'] else [])) := by
  obtain ⟨t', hok, hfold⟩ := foldAction_ok eval s.table playerId p hfind hactor hf ha
  refine ⟨t', hok, hfold, ?_⟩
  unfold handlePlayerAction
  rw [herr, hreg, hfind]
  dsimp only
  rw [if_pos hactor, hok]
  rfl

theorem autofold_on_illegal_action_witness :
    ∃ t', sLive.table.foldAction (fun _ => 0) "alice" = Except.ok t' ∧
      foldedOf t' "alice" = some true ∧
      handlePlayerAction (fun _ => 0) sLive "alice" "jump" none =
        ({ sLive with table := t' },
          Msg.errorToSocket cpAlice.socket "Invalid action"
            :: Msg.notifyAll (cpAlice.name ++ " auto-folded due to invalid action: "
                  ++ "Invalid action")
            :: (broadcastGameStateMsgs { sLive with table := t' }
                ++ if t'.currentRound.isNone then [handleHandCompleteMsg t'] else [])) :=
  autofold_on_illegal_action (fun _ => 0) sLive "alice" "jump" none "Invalid action"
    cpAlice pAlice rfl rfl rfl rfl rfl rfl

/-- C3: the public projections broadcast to all connections expose, per
seat, only id, name, stack, bet, folded flag and whose-turn flag (plus the
table-wide community cards, pot, current bet, actor and street) and are
invariant under arbitrary changes to any players' hole cards: two states
differing only in hole cards produce identical public broadcasts. -/
theorem public_broadcast_independent_of_holeCards (s : ServiceState)
    (f : String → List Card) :
    getPublicPlayerStates
        { table := s.table.setHoleCards f, connectedPlayers := s.connectedPlayers }
      = getPublicPlayerStates s ∧
    publicGameState
        { table := s.table.setHoleCards f, connectedPlayers := s.connectedPlayers }
      = publicGameState s := by
  have hplayers : getPublicPlayerStates
      { table := s.table.setHoleCards f, connectedPlayers := s.connectedPlayers }
      = getPublicPlayerStates s := by
    unfold getPublicPlayerStates Table.setHoleCards Table.mapSeats
    dsimp only
    rw [List.map_map]
    exact List.map_congr_left (fun os _ => by cases os <;> rfl)
  have h1 : (s.table.setHoleCards f).communityCards = s.table.communityCards := rfl
  have h2 : (s.table.setHoleCards f).pots = s.table.pots := rfl
  have h3 : (s.table.setHoleCards f).currentBet = s.table.currentBet := rfl
  have h4 : (s.table.setHoleCards f).currentRound = s.table.currentRound := rfl
  have h5 : (s.table.setHoleCards f).currentActorId = s.table.currentActorId := rfl
  refine ⟨hplayers, ?_⟩
  unfold publicGameState
  dsimp only
  rw [h1, h2, h3, h4, h5, hplayers]

/-- C9: the private projection sent to a connected player carries only that
player's own data: it is invariant under changes to every other player's
hole cards, its availableActions list is empty unless that player is the
current actor, its minRaise is the table's last raise (defaulting to the
big blind) and its maxBet is that player's own stack; and the private
messages of a broadcast are addressed one per registry entry, each to its
own player. -/
theorem private_projection_own_data_only (s : ServiceState) (pid : String)
    (f : String → List Card) :
    privateStateFor
        { table := s.table.setHoleCardsExcept pid f, connectedPlayers := s.connectedPlayers }
        pid
      = privateStateFor s pid ∧
    (s.table.currentActorId ≠ some pid → (privateStateFor s pid).availableActions = []) ∧
    (privateStateFor s pid).minRaise = s.table.lastRaise.getD s.table.bigBlind ∧
    (privateStateFor s pid).maxBet = ((s.table.findPlayer pid).map (·.stackSize)).getD 0 ∧
    (privateStateFor s pid).holeCards = (s.table.findPlayer pid).map (·.holeCards) ∧
    broadcastGameStateMsgs s =
      Msg.broadcastGameState (publicGameState s)
        :: s.connectedPlayers.map (fun e => Msg.privateTo e.1 (privateStateFor s e.1)) := by
  refine ⟨?_, ?_, rfl, rfl, rfl, rfl⟩
  · have hfp : (s.table.setHoleCardsExcept pid f).findPlayer pid = s.table.findPlayer pid := by
      unfold Table.setHoleCardsExcept
      rw [findPlayer_mapSeats s.table
        (fun p => if p.id == pid then p else { p with holeCards := f p.id })
        (fun p => by by_cases h : p.id == pid <;> simp [h]) pid]
      cases hfind : s.table.findPlayer pid with
      | none => rfl
      | some q =>
          have h0 : (s.table.seatedPlayers).find? (fun r => r.id == pid) = some q := hfind
          have hq : q.id = pid := by simpa using List.find?_some h0
          simp [hq]
    have hleg : legalActions (s.table.setHoleCardsExcept pid f) = legalActions s.table := by
      funext q
      rfl
    have ha1 : (s.table.setHoleCardsExcept pid f).currentActorId = s.table.currentActorId := rfl
    have ha2 : (s.table.setHoleCardsExcept pid f).lastRaise = s.table.lastRaise := rfl
    have ha3 : (s.table.setHoleCardsExcept pid f).bigBlind = s.table.bigBlind := rfl
    unfold privateStateFor
    dsimp only
    rw [hfp, hleg, ha1, ha2, ha3]
  · intro h
    unfold privateStateFor
    simp [if_neg h]

theorem private_projection_own_data_only_witness :
    privateStateFor
        { table := sLive.table.setHoleCardsExcept "bob" (fun _ => []),
          connectedPlayers := sLive.connectedPlayers } "bob"
      = privateStateFor sLive "bob" ∧
    (privateStateFor sLive "bob").availableActions = [] :=
  ⟨(private_projection_own_data_only sLive "bob" (fun _ => [])).1,
   (private_projection_own_data_only sLive "bob" (fun _ => [])).2.1 (by decide)⟩

/-- The engine's raise: it succeeds only under the C4 condition, and under
the negated condition it always fails. -/
theorem raiseAction_cond (eval : List Card → Nat) (t : Table) (pid : String) (p : Player)
    (a : Nat) (hfind : t.findPlayer pid = some p) :
    (exceptIsOk (t.raiseAction eval pid a) = true → raiseLegalCond t p a) ∧
    (¬ raiseLegalCond t p a → exceptIsOk (t.raiseAction eval pid a) = false) := by
  unfold Table.raiseAction Table.actorCheck
  rw [hfind]
  dsimp only
  by_cases h1 : t.currentActorId ≠ some pid
  · rw [if_pos h1]
    exact ⟨fun h => absurd h (by simp [exceptIsOk]), fun _ => rfl⟩
  · rw [if_neg h1]
    by_cases h2 : (p.folded || p.allIn) = true
    · rw [if_pos h2]
      exact ⟨fun h => absurd h (by simp [exceptIsOk]), fun _ => rfl⟩
    · rw [if_neg h2]
      dsimp only
      by_cases h3 : t.currentBet.getD 0 = 0
      · rw [if_pos h3]
        exact ⟨fun h => absurd h (by simp [exceptIsOk]), fun _ => rfl⟩
      · rw [if_neg h3]
        by_cases h4 : ((a : Int) - (t.currentBet.getD 0 : Int)
              < (t.lastRaise.getD t.bigBlind : Int)
            ∧ a ≠ p.stackSize
            ∧ ¬(t.communityCards.isEmpty = true ∧ p.bet = t.smallBlind ∧ a = t.bigBlind))
        · rw [if_pos h4]
          exact ⟨fun h => absurd h (by simp [exceptIsOk]), fun _ => rfl⟩
        · rw [if_neg h4]
          have hcond : raiseLegalCond t p a := by
            unfold raiseLegalCond
            by_cases hx : (t.lastRaise.getD t.bigBlind : Int)
                ≤ (a : Int) - (t.currentBet.getD 0 : Int)
            · exact Or.inl hx
            · by_cases hy : a = p.stackSize
              · exact Or.inr (Or.inl hy)
              · by_cases hz : (t.communityCards.isEmpty = true ∧ p.bet = t.smallBlind
                    ∧ a = t.bigBlind)
                · exact Or.inr (Or.inr hz)
                · exact absurd ⟨not_le.mp hx, hy, hz⟩ h4
          by_cases h5 : p.stackSize + p.bet < a
          · rw [if_pos h5]
            exact ⟨fun _ => hcond, fun hnc => absurd hcond hnc⟩
          · rw [if_neg h5]
            exact ⟨fun _ => hcond, fun hnc => absurd hcond hnc⟩

/-- C4: a raise request by the acting player is accepted only if the
increase over the current bet is at least the last raise of the street
(defaulting to bigBlind when no raise has occurred), unless the amount is
the player's entire remaining stack (all-in) or it is the preflop
small-blind completion to the big blind; when the condition fails the
request fails as an illegal action. -/
theorem raise_minimum_sizing (eval : List Card → Nat) (t : Table) (pid : String) (p : Player)
    (a : Nat) (hfind : t.findPlayer pid = some p) :
    (exceptIsOk (applyAction eval t pid "raise" (some a)) = true → raiseLegalCond t p a) ∧
    (¬ raiseLegalCond t p a →
      exceptIsOk (applyAction eval t pid "raise" (some a)) = false) := by
  unfold applyAction
  rw [hfind]
  dsimp only
  by_cases h1 : t.currentActorId ≠ some pid
  · rw [if_pos h1]
    exact ⟨fun h => absurd h (by simp [exceptIsOk]), fun _ => rfl⟩
  · rw [if_neg h1,
        if_neg (by decide : ¬("raise" : String) = "call"),
        if_neg (by decide : ¬("raise" : String) = "check"),
        if_neg (by decide : ¬("raise" : String) = "fold"),
        if_neg (by decide : ¬("raise" : String) = "bet"),
        if_pos (rfl : ("raise" : String) = "raise")]
    by_cases hw : (¬(a = p.stackSize)
        ∧ ¬(t.communityCards.isEmpty = true ∧ p.bet = t.smallBlind ∧ a = t.bigBlind)
        ∧ (a : Int) - (t.currentBet.getD 0 : Int) < (t.bigBlind : Int))
    · rw [if_pos hw]
      exact ⟨fun h => absurd h (by simp [exceptIsOk]), fun _ => rfl⟩
    · rw [if_neg hw]
      exact raiseAction_cond eval t pid p a hfind

theorem raise_minimum_sizing_witness :
    raiseLegalCond tLive pAlice 30 ∧
    exceptIsOk (applyAction (fun _ => 0) tLive "alice" "raise" (some 30)) = true := by
  have h := (raise_minimum_sizing (fun _ => 0) tLive "alice" pAlice 30 rfl).1 (by rfl)
  exact ⟨h, by rfl⟩

/-- C6 counterexample: with a pot of 25 and two tied winners the
`handComplete` message reports 25/2 = 12.5 to each winner — the amounts are
not integers and no remainder goes to the earliest winner (the claim would
require 13 and 12). -/
theorem handComplete_fractional_split_counterexample :
    handleHandCompleteMsg tC6 = Msg.handComplete (some
      [{ playerId := "A", amount := (25 : ℚ) / 2 },
       { playerId := "B", amount := (25 : ℚ) / 2 }]) ∧
    (winnerAmount tC6 "A").den = 2 ∧
    winnerAmount tC6 "A" + winnerAmount tC6 "B" = 25 ∧
    ¬(winnerAmount tC6 "A" = 13 ∧ winnerAmount tC6 "B" = 12) := by
  have hA : winnerAmount tC6 "A" = 25 / 2 := by simp [winnerAmount, tC6, potC6]
  have hB : winnerAmount tC6 "B" = 25 / 2 := by simp [winnerAmount, tC6, potC6]
  have hw : tC6.winners = some ["A", "B"] := rfl
  refine ⟨?_, ?_, ?_, ?_⟩
  · simp [handleHandCompleteMsg, hw, hA, hB]
  · rw [hA]
    norm_num [Rat.den]
  · rw [hA, hB]
    norm_num
  · rw [hA, hB]
    intro hand
    exact absurd hand.1 (by norm_num)

/-- C6 amended: the amount reported per winner in the handComplete message
is computed per pot as the pot amount divided by that pot's winner count
using JS number division, summed over the pots listing that winner; all
winners of exactly the same pots are reported identical amounts, so no
integer remainder is distributed to the earliest-acting winner and the
reported amounts need not be integers.  The division operator is
abstracted (`divf`), so the equal-shares and per-pot-share conclusions
hold for the real float64 division as well as for the ideal rational
instance, which is proved to be exactly `winnerAmount`. -/
theorem handComplete_equal_shares (divf : Nat → Nat → ℚ) (t : Table)
    (w1 w2 : String) (pot : Pot)
    (hsame : ∀ q ∈ t.pots,
      (q.winners.getD []).contains w1 = (q.winners.getD []).contains w2) :
    winnerAmount t w1 = winnerAmountWith (fun a n => (a : ℚ) / (n : ℚ)) t w1 ∧
    winnerAmountWith divf t w1 = winnerAmountWith divf t w2 ∧
    (t.pots = [pot] → (pot.winners.getD []).contains w1 = true →
      winnerAmountWith divf t w1
        = divf pot.amount ((fun n => if n = 0 then 1 else n) (pot.winners.getD []).length)) := by
  refine ⟨rfl, ?_, ?_⟩
  · have key : ∀ (l : List Pot),
        (∀ q ∈ l, (q.winners.getD []).contains w1 = (q.winners.getD []).contains w2) →
        ∀ init : ℚ,
        l.foldl (fun total q => if (q.winners.getD []).contains w1 then
            total + divf q.amount ((fun n => if n = 0 then 1 else n) (q.winners.getD []).length)
          else total) init
        = l.foldl (fun total q => if (q.winners.getD []).contains w2 then
            total + divf q.amount ((fun n => if n = 0 then 1 else n) (q.winners.getD []).length)
          else total) init := by
      intro l
      induction l with
      | nil => intro h init; rfl
      | cons q rest ih =>
          intro h init
          rw [List.foldl_cons, List.foldl_cons]
          have hq := h q (List.mem_cons_self q rest)
          rw [show (if (q.winners.getD []).contains w1 then
                init + divf q.amount
                  ((fun n => if n = 0 then 1 else n) (q.winners.getD []).length)
              else init)
            = (if (q.winners.getD []).contains w2 then
                init + divf q.amount
                  ((fun n => if n = 0 then 1 else n) (q.winners.getD []).length)
              else init) from by rw [hq]]
          exact ih (fun r hr => h r (List.mem_cons_of_mem q hr)) _
    exact key t.pots hsame 0
  · intro hp hc
    have hm : w1 ∈ pot.winners.getD [] := by simpa using hc
    unfold winnerAmountWith
    rw [hp]
    simp [hm]

theorem handComplete_equal_shares_witness :
    winnerAmount tC6 "A" = winnerAmountWith (fun a n => (a : ℚ) / (n : ℚ)) tC6 "A" ∧
    winnerAmountWith (fun a n => (a : ℚ) / (n : ℚ)) tC6 "A"
      = winnerAmountWith (fun a n => (a : ℚ) / (n : ℚ)) tC6 "B" ∧
    (tC6.pots = [potC6] → (potC6.winners.getD []).contains "A" = true →
      winnerAmountWith (fun a n => (a : ℚ) / (n : ℚ)) tC6 "A"
        = (fun a n => (a : ℚ) / (n : ℚ)) potC6.amount
            ((fun n => if n = 0 then 1 else n) (potC6.winners.getD []).length)) :=
  handComplete_equal_shares (fun a n => (a : ℚ) / (n : ℚ)) tC6 "A" "B" potC6 (by decide)

theorem filterMap_bind_stack (l : List (Option Player)) :
    ((l.map (fun s => s.bind (fun p => if p.stackSize = 0 then none else some p))).filterMap id)
      = (l.filterMap id).filter (fun p => p.stackSize != 0) := by
  induction l with
  | nil => simp
  | cons s rest ih =>
      cases s with
      | none => simpa using ih
      | some p =>
          by_cases h : p.stackSize = 0
          · simp [h, ih]
          · simp [h, ih]

/-- C8 amended: a startGame request while fewer than two seated players
have chips changes nothing and produces exactly one broadcast — an
error-typed message to all connections. -/
theorem startNewHand_insufficient_players (s : ServiceState) (deck : List Card)
    (h : (s.table.seatedPlayers.filter (fun p => p.stackSize != 0)).length < 2) :
    startNewHand s deck =
      (s, [Msg.broadcastError "Failed to start new hand. Make sure there are enough players."]) := by
  have hcond : ((s.table.players.map (fun q => q.bind
      (fun p => if p.stackSize = 0 then none else some p))).filterMap id).length < 2 := by
    rw [filterMap_bind_stack]
    exact h
  unfold startNewHand Table.dealCards
  rw [if_pos hcond]

theorem startNewHand_insufficient_players_witness :
    startNewHand { table := initialTable, connectedPlayers := [] } []
      = ({ table := initialTable, connectedPlayers := [] },
         [Msg.broadcastError "Failed to start new hand. Make sure there are enough players."]) :=
  startNewHand_insufficient_players { table := initialTable, connectedPlayers := [] } []
    (by decide)

/-- C8 counterexample: with one seated player the failed start is broadcast
as an `error`-typed message and no `notification`-typed message is sent, so
the failure is not "reported as a notification"; the state is unchanged. -/
theorem startNewHand_error_broadcast_counterexample :
    startNewHand sJoined []
      = (sJoined,
         [Msg.broadcastError "Failed to start new hand. Make sure there are enough players."]) ∧
    (startNewHand sJoined []).2.all (fun m => !m.isNotifyAll) = true :=
  ⟨rfl, rfl⟩

end PokerApp
